import Mathlib

/-!
Verification of the pyqt ffmpeg screen recorder's core logic against its
natural-language specification.

The development shallowly embeds the two algorithmic subsystems of the
source:

* `core/device_utils.py` — the dshow device-catalog parser
  (`list_dshow_audio_devices`, `_smart_decode`, helpers), modelled over
  `List Char` lines.  Process invocation (`_run_ffmpeg_list`) is I/O and is
  outside the embedding: the parser takes the decoded probe output,
  already split into lines, as its input.
* `core/ffmpeg_recorder.py` — the segmented recording state machine
  (`FFmpegRecorder`), modelled as a record of the instance fields with one
  Lean function per method.  Qt signal emissions and filesystem / process
  side effects are reified as an event list (`Ev`); the outcomes of
  external effects (file existence, process exit codes, spawn success) are
  supplied as explicit arguments, mirroring the spots where the source
  consults the environment.
-/

/-! ## Character / string helpers (Python semantics, ASCII range) -/

/-- Python whitespace for `str.lstrip` and the regex class `\s`
(ASCII: space, tab, newline, carriage return, vertical tab, form feed). -/
def isSpaceChar (c : Char) : Bool :=
  c = ' ' || c = '\t' || c = '\n' || c = '\r' || c = Char.ofNat 11 || c = Char.ofNat 12

/-- ASCII lowercasing, as used by `re.I` matching and `str.lower`. -/
def lowerChar (c : Char) : Char := c.toLower

/-- `a` begins with `b` (character-exact). -/
def strStartsWith : List Char → List Char → Bool
  | _, [] => true
  | [], _ :: _ => false
  | c :: cs, d :: ds => c = d && strStartsWith cs ds

/-- Substring containment, Python's `needle in hay`. -/
def containsSub (hay needle : List Char) : Bool :=
  (List.range (hay.length + 1)).any fun i => strStartsWith (hay.drop i) needle

/-- Leading-whitespace strip, Python's `str.lstrip()`. -/
def dropWS (l : List Char) : List Char := l.dropWhile isSpaceChar

/-- `raw.rstrip("\r\n")`: drop trailing CR/LF characters. -/
def rstripCRLF (l : List Char) : List Char :=
  (l.reverse.dropWhile fun c => c = '\r' || c = '\n').reverse

/-! ## Device catalog parser (`core/device_utils.py`) -/

/-- One parsed dshow device descriptor: the dict
`{"display": <str>, "alt": <str or ''>}` of the source. -/
structure DshowDevice where
  display : String
  alt : String
deriving DecidableEq

/-- The kind token of a declaration line (`_DEV_RE` group `kind`). -/
inductive DKind | audio | video
deriving DecidableEq

/-- `_strip_dshow_prefix`: lstrip, then if the line starts with `[dshow`
cut everything through the first `]` and lstrip again. -/
def stripDshowTag (line : List Char) : List Char :=
  let s := dropWS line
  if strStartsWith s "[dshow".data then
    match s.findIdx? (fun c => c = ']') with
    | some r => dropWS (s.drop (r + 1))
    | none => s
  else s

/-- Case-insensitive match of the literal `lit` (given lowercased) at the
head of `l`. -/
def ciStartsWith (l : List Char) (lit : List Char) : Bool :=
  strStartsWith (l.map lowerChar) lit

/-- Matcher for `_DEV_RE = ^\s*"([^"]+)"\s+\((audio|video)\)\s*$` (re.I):
returns the quoted name and the kind token on success. -/
def devMatch (l : List Char) : Option (List Char × DKind) :=
  let s := dropWS l
  match s with
  | '"' :: rest =>
    let name := rest.takeWhile fun c => c ≠ '"'
    let rest2 := rest.dropWhile fun c => c ≠ '"'
    match rest2 with
    | '"' :: rest3 =>
      if name = [] then none
      else
        let ws := rest3.takeWhile isSpaceChar
        let rest4 := rest3.dropWhile isSpaceChar
        if ws = [] then none
        else
          match rest4 with
          | '(' :: rest5 =>
            let kind? : Option DKind :=
              if ciStartsWith rest5 "audio".data then some DKind.audio
              else if ciStartsWith rest5 "video".data then some DKind.video
              else none
            match kind? with
            | some k =>
              match rest5.drop 5 with
              | ')' :: rest6 =>
                if rest6.all isSpaceChar then some (name, k) else none
              | _ => none
            | none => none
          | _ => none
    | _ => none
  | _ => none

/-- Matcher for `_ALT_RE = ^\s*Alternative name\s+"([^"]+)"\s*$` (re.I):
returns the quoted alternate identifier on success. -/
def altMatch (l : List Char) : Option (List Char) :=
  let s := dropWS l
  if ciStartsWith s "alternative name".data then
    let rest := s.drop 16
    let ws := rest.takeWhile isSpaceChar
    let rest2 := rest.dropWhile isSpaceChar
    if ws = [] then none
    else
      match rest2 with
      | '"' :: rest3 =>
        let alt := rest3.takeWhile fun c => c ≠ '"'
        let rest4 := rest3.dropWhile fun c => c ≠ '"'
        if alt = [] then none
        else
          match rest4 with
          | '"' :: rest5 => if rest5.all isSpaceChar then some alt else none
          | _ => none
      | _ => none
  else none

/-- Scan state of `list_dshow_audio_devices`: accumulated descriptors, the
coarse `in_audio` section flag, and the index of the last open descriptor. -/
structure ScanSt where
  devices : List DshowDevice
  in_audio : Bool
  last_idx : Option Nat
deriving DecidableEq

/-- Overwrite the `alt` field of the descriptor at index `i`
(`devices[last_idx]["alt"] = alt`). -/
def setAltAt : List DshowDevice → Nat → String → List DshowDevice
  | [], _, _ => []
  | d :: ds, 0, a => { d with alt := a } :: ds
  | d :: ds, n + 1, a => d :: setAltAt ds n a

/-- Section-header literals tested with plain substring containment. -/
def audioHdr : List Char := "DirectShow audio devices".data

/-- See `audioHdr`. -/
def videoHdr : List Char := "DirectShow video devices".data

/-- The acceptance test of a matched declaration line:
`kind == "audio" or (not in_audio and "(audio)" in line.lower())`. -/
def declAccepted (inAudio : Bool) (kind : DKind) (line : List Char) : Bool :=
  kind = DKind.audio || (!inAudio && containsSub (line.map lowerChar) "(audio)".data)

/-- The per-line body of the scan loop, applied to the already
prefix-stripped line. -/
def scanCore (st : ScanSt) (line : List Char) : ScanSt :=
  if containsSub line audioHdr then { st with in_audio := true }
  else if containsSub line videoHdr then { st with in_audio := false }
  else
    match devMatch line with
    | some (name, kind) =>
      if declAccepted st.in_audio kind line then
        { st with devices := st.devices ++ [⟨String.mk name, ""⟩],
                  last_idx := some st.devices.length }
      else st
    | none =>
      match altMatch line with
      | some alt =>
        match st.last_idx with
        | some i => { st with devices := setAltAt st.devices i (String.mk alt) }
        | none =>
          { st with devices := st.devices ++ [⟨"", String.mk alt⟩],
                    last_idx := some st.devices.length }
      | none => st

/-- One iteration of the scan loop of `list_dshow_audio_devices`:
`line0 = raw.rstrip("\r\n")`, `line = _strip_dshow_prefix(line0)`, then
headers / declaration / alternate-name matching. -/
def scanLine (st : ScanSt) (raw : List Char) : ScanSt :=
  scanCore st (stripDshowTag (rstripCRLF raw))

/-- Identity of a descriptor: the `(display, alt)` pair used as the
de-duplication key. -/
def devKey (d : DshowDevice) : String × String := (d.display, d.alt)

/-- The final de-duplication loop: keep the first occurrence of each
`(display, alt)` pair, `seen` being the set accumulated so far. -/
def dedupDevices : List (String × String) → List DshowDevice → List DshowDevice
  | _, [] => []
  | seen, d :: ds =>
    if devKey d ∈ seen then dedupDevices seen ds
    else d :: dedupDevices (devKey d :: seen) ds

/-- The full scan of `list_dshow_audio_devices` before de-duplication. -/
def scanDevices (lines : List (List Char)) : List DshowDevice :=
  (lines.foldl scanLine ⟨[], false, none⟩).devices

/-- `list_dshow_audio_devices`, applied to the decoded probe output given
as its list of lines (the probe invocation itself is I/O and outside the
embedding). -/
def list_dshow_audio_devices (lines : List (List Char)) : List DshowDevice :=
  dedupDevices [] (scanDevices lines)

/-! ## Best-effort text decoding (`_smart_decode`)

The byte-level decoding primitives (`bytes.decode`, `locale`, `chardet`)
are Python-runtime collaborators; the embedding takes them as an
environment of fallible functions (`Except Unit` models a raised
exception) and embeds the cascade of `_smart_decode` over them.
`utf8Lossy` models `b.decode("utf-8", errors="replace")`, which is total
in Python, so it is a plain function. -/

/-- The decoding environment consumed by `_smart_decode`. -/
structure DecodeEnv where
  utf8Strict : List Nat → Except Unit String
  localeDec : List Nat → Except Unit String
  chardetAvail : Bool
  chardetGuess : List Nat → Except Unit (Option String)
  decodeWith : String → List Nat → Except Unit String
  utf8Lossy : List Nat → String

/-- The acceptance test of step 1: `"�" not in t and "留" not in t`. -/
def hasMojibake (t : String) : Bool :=
  containsSub t.data "�".data || containsSub t.data "留".data

/-- The acceptance test of step 2: `"�" not in t`. -/
def hasReplacement (t : String) : Bool :=
  containsSub t.data "�".data

/-- `_smart_decode`: strict UTF-8, then the locale's preferred encoding
with replacement, then a chardet guess, then lossy UTF-8. -/
def smart_decode (env : DecodeEnv) (b : List Nat) : String :=
  let step4 := env.utf8Lossy b
  let step3 :=
    if env.chardetAvail then
      match env.chardetGuess b with
      | .ok (some enc2) =>
        if enc2 ≠ "" then
          match env.decodeWith enc2 b with
          | .ok t => t
          | .error _ => step4
        else step4
      | .ok none => step4
      | .error _ => step4
    else step4
  let step2 :=
    match env.localeDec b with
    | .ok t => if !hasReplacement t then t else step3
    | .error _ => step3
  match env.utf8Strict b with
  | .ok t => if !hasMojibake t then t else step2
  | .error _ => step2

/-- Step 1 falls through: strict UTF-8 raised, or its result carries a
replacement/mojibake marker. -/
def strictRejected (env : DecodeEnv) (b : List Nat) : Prop :=
  ∀ t, env.utf8Strict b = .ok t → hasMojibake t = true

/-- Step 2 falls through: the locale decode raised, or its result carries
a replacement marker. -/
def localeRejected (env : DecodeEnv) (b : List Nat) : Prop :=
  ∀ t, env.localeDec b = .ok t → hasReplacement t = true

/-- Step 3 falls through: no detector, no usable guess, or the guessed
decode raised. -/
def chardetFallsThrough (env : DecodeEnv) (b : List Nat) : Prop :=
  env.chardetAvail = true →
    match env.chardetGuess b with
    | .ok (some e) => e = "" ∨ env.decodeWith e b = .error ()
    | _ => True

/-! ## Recording state machine (`core/ffmpeg_recorder.py`) -/

/-- Monitor geometry (`core/monitor_utils.py`). -/
structure MonitorInfo where
  index : Int
  x : Int
  y : Int
  width : Int
  height : Int
deriving DecidableEq

/-- The `AudioMode` literal type: `"none" | "dshow"`. -/
inductive AudioMode | none | dshow
deriving DecidableEq

/-- The `VideoEncoder` literal type. -/
inductive VideoEncoder
  | libx264 | h264_nvenc | h264_qsv | h264_amf | hevc_nvenc | hevc_qsv | hevc_amf
deriving DecidableEq

/-- The encoder's literal string value. -/
def VideoEncoder.str : VideoEncoder → String
  | .libx264 => "libx264"
  | .h264_nvenc => "h264_nvenc"
  | .h264_qsv => "h264_qsv"
  | .h264_amf => "h264_amf"
  | .hevc_nvenc => "hevc_nvenc"
  | .hevc_qsv => "hevc_qsv"
  | .hevc_amf => "hevc_amf"

/-- The `State` literal type: `"IDLE" | "RUNNING" | "CLOSING" | "PAUSED"`. -/
inductive RState | IDLE | RUNNING | CLOSING | PAUSED
deriving DecidableEq

/-- `FFmpegOptions` — exactly the fields of the source dataclass.  Paths
are modelled as strings joined with `/`. -/
structure FFmpegOptions where
  ffmpeg_path : String
  output_dir : String
  fps : Int
  preset : String
  monitor : MonitorInfo
  audio_mode : AudioMode
  audio_device : Option String
  encoder : VideoEncoder := .libx264
  audio_delay_ms : Int := 500
deriving DecidableEq

/-- Reified side effects: Qt signal emissions and filesystem / process
actions performed by the recorder, in program order. -/
inductive Ev
  | errorEv (msg : String)
  | logEv (msg : String)
  | startedEv
  | stoppedEv (code : Int)
  | stateChangedEv (s : RState)
  | mkdirEv (p : String)
  | spawnEv (cmd : List String)
  | writeStdinEv (d : String)
  | terminateEv
  | killEv
  | unlinkEv (p : String)
  | moveEv (src dst : String)
  | writeFileEv (p : String) (content : String)
  | runProcEv (cmd : List String)
  | rmdirEv (p : String)
deriving DecidableEq

/-- The mutable instance fields of `FFmpegRecorder`.  `rstate` models
`_state`; `proc : Option Nat` models the `QProcess` handle by identity
with `nextPid` as a fresh-handle counter; `cur_seg` models the `seg_path`
value captured by the `finished`-signal closure of the live process. -/
structure FFmpegRecorder where
  proc : Option Nat := Option.none
  nextPid : Nat := 0
  cur_seg : Option String := Option.none
  opt : Option FFmpegOptions := Option.none
  base_ts : Option String := Option.none
  seg_dir : Option String := Option.none
  segments : List String := []
  final_path : Option String := Option.none
  rstate : RState := .IDLE
  resume_pending : Bool := false
  suppress_next_seg_log : Bool := false
deriving DecidableEq

/-- `is_recording`: state is RUNNING or CLOSING. -/
def is_recording (r : FFmpegRecorder) : Bool :=
  r.rstate = .RUNNING || r.rstate = .CLOSING

/-- `is_paused`. -/
def is_paused (r : FFmpegRecorder) : Bool := r.rstate = .PAUSED

/-- `_set_state`: update `_state` and emit `stateChanged` only on change. -/
def setStateF (r : FFmpegRecorder) (s : RState) : FFmpegRecorder × List Ev :=
  if r.rstate = s then (r, []) else ({ r with rstate := s }, [.stateChangedEv s])

/-- `_video_encode_args` (the trailing Python fallback return is
unreachable: the `Literal` type covers every case). -/
def video_encode_args (opt : FFmpegOptions) : List String :=
  match opt.encoder with
  | .libx264 => ["-c:v", "libx264", "-preset", opt.preset, "-pix_fmt", "yuv420p"]
  | .h264_nvenc => ["-c:v", "h264_nvenc", "-preset", "p5", "-pix_fmt", "yuv420p"]
  | .hevc_nvenc => ["-c:v", "hevc_nvenc", "-preset", "p5", "-pix_fmt", "yuv420p"]
  | .h264_qsv => ["-c:v", "h264_qsv", "-pix_fmt", "yuv420p"]
  | .hevc_qsv => ["-c:v", "hevc_qsv", "-pix_fmt", "yuv420p"]
  | .h264_amf => ["-c:v", "h264_amf", "-pix_fmt", "yuv420p"]
  | .hevc_amf => ["-c:v", "hevc_amf", "-pix_fmt", "yuv420p"]

/-- `f"{idx:02d}"`: zero-pad to at least two digits. -/
def pad2 (n : Nat) : String :=
  if n < 10 then "0" ++ toString n else toString n

/-- `f"{ms/1000:.3f}"` for an integer millisecond count: the exact
decimal `ms/1000` printed with three fractional digits (the double
rounding of CPython reproduces this for every |ms| in the recorder's
range; the UI bounds the delay to ±2000). -/
def fmtItsoffset (ms : Int) : String :=
  (if ms < 0 then "-" else "") ++ toString (ms.natAbs / 1000) ++ "." ++
    (let f := ms.natAbs % 1000
     (if f < 10 then "00" else if f < 100 then "0" else "") ++ toString f)

/-- `_segment_filename`: `seg_dir / f"seg{idx:02d}.mp4"`. -/
def segment_filename (seg_dir : String) (idx : Nat) : String :=
  seg_dir ++ "/seg" ++ pad2 idx ++ ".mp4"

/-- `_final_filename`: `output_dir / f"record_{base_ts}.mp4"`. -/
def final_filename (output_dir ts : String) : String :=
  output_dir ++ "/record_" ++ ts ++ ".mp4"

/-- `build_command opt out_file`: the per-segment encoder argument list. -/
def build_command (opt : FFmpegOptions) (out_file : String) : List String :=
  let m := opt.monitor
  let video_args : List String :=
    ["-f", "gdigrab",
     "-framerate", toString opt.fps,
     "-offset_x", toString m.x,
     "-offset_y", toString m.y,
     "-video_size", toString m.width ++ "x" ++ toString m.height,
     "-i", "desktop"]
  let audio_args : List String :=
    match opt.audio_mode, opt.audio_device with
    | .dshow, some dev =>
      if dev ≠ "" then
        (if opt.audio_delay_ms ≠ 0 then ["-itsoffset", fmtItsoffset opt.audio_delay_ms] else [])
          ++ ["-thread_queue_size", "512", "-f", "dshow", "-i", "audio=" ++ dev]
      else []
    | _, _ => []
  let encode_v := video_encode_args opt
  let encode_a :=
    match opt.audio_mode with
    | .none => ["-an"]
    | .dshow => ["-c:a", "aac", "-b:a", "192k", "-ar", "48000", "-ac", "2"]
  let mux_misc := ["-movflags", "+faststart"]
  [opt.ffmpeg_path, "-y", "-hide_banner", "-v", "warning"]
    ++ video_args ++ audio_args ++ encode_v ++ encode_a ++ mux_misc ++ [out_file]

/-- `seg_path.name` / `final.name`: the basename of a `/`-joined path. -/
def baseName (p : String) : String := (p.splitOn "/").getLastD p

/-- The single-quote character, written numerically. -/
def squo : String := (Char.ofNat 39).toString

/-- The backslash character. -/
def bsl : String := (Char.ofNat 92).toString

/-- `str(p).replace("\\", "/").replace("'", "'\''")`: forward slashes and
shell-style escaping of single quotes for the concat list file. -/
def escapePath (p : String) : String :=
  (p.replace bsl "/").replace squo (squo ++ bsl ++ squo ++ squo)

/-- One line of the concat list: `file '<escaped>'` plus newline. -/
def concatListLine (p : String) : String :=
  "file " ++ squo ++ escapePath p ++ squo ++ "\n"

/-- `_start_new_segment`: compute the next segment path, spawn a fresh
process for it, move to RUNNING; on a start-confirmation timeout
(`spawnOk = false`, i.e. `waitForStarted` failed) report the error, clear
the handle and fall back to IDLE.  The `none` branch of the match is
unreachable: the source asserts `self.opt and self.base_ts and
self.seg_dir`. -/
def start_new_segment (r : FFmpegRecorder) (spawnOk : Bool) :
    FFmpegRecorder × List Ev × Bool :=
  match r.opt, r.base_ts, r.seg_dir with
  | some opt, some _, some segd =>
    let seg_path := segment_filename segd (r.segments.length + 1)
    let cmd := build_command opt seg_path
    let r1 := { r with proc := some r.nextPid, nextPid := r.nextPid + 1,
                       cur_seg := some seg_path }
    let st2 := setStateF r1 .RUNNING
    let evs2 := st2.2 ++ [.logEv ("실행: " ++ String.intercalate " " cmd), .spawnEv cmd]
    if spawnOk then (st2.1, evs2, true)
    else
      let st4 := setStateF { st2.1 with proc := Option.none } .IDLE
      (st4.1, evs2 ++ [.errorEv "FFmpeg 시작 실패. ffmpeg 경로/권한을 확인하세요."] ++ st4.2,
       false)
  | _, _, _ => (r, [], false)

/-- `start`: reject while a process handle exists or while recording
(RUNNING/CLOSING) or when the ffmpeg path does not resolve
(`pathExists`); otherwise create a fresh session (`ts` models
`datetime.now().strftime(...)`) and spawn segment 1. -/
def start (r : FFmpegRecorder) (opt : FFmpegOptions) (pathExists : Bool)
    (ts : String) (spawnOk : Bool) : FFmpegRecorder × List Ev × Bool :=
  if r.proc.isSome || is_recording r then
    (r, [.errorEv "이미 녹화가 실행 중입니다."], false)
  else if !pathExists then
    (r, [.errorEv ("FFmpeg 경로가 잘못되었습니다: " ++ opt.ffmpeg_path)], false)
  else
    let seg_dir := opt.output_dir ++ "/.segments_" ++ ts
    let r1 := { r with opt := some opt, base_ts := some ts, seg_dir := some seg_dir,
                       segments := [],
                       final_path := some (final_filename opt.output_dir ts),
                       resume_pending := false, suppress_next_seg_log := false }
    let evs0 := [Ev.mkdirEv opt.output_dir, Ev.mkdirEv seg_dir]
    let t := start_new_segment r1 spawnOk
    (t.1, evs0 ++ t.2.1 ++ (if t.2.2 then [Ev.startedEv] else []), t.2.2)

/-- `pause`: only in RUNNING with a live process; set the log-suppression
flag, move to CLOSING and write the graceful-stop command `q` to the
process.  `writeOk = false` models `proc.write` raising, in which case the
`except` branch reports the error and rolls back to RUNNING. -/
def pause (r : FFmpegRecorder) (writeOk : Bool) : FFmpegRecorder × List Ev × Bool :=
  if !(r.rstate = .RUNNING) || r.proc.isNone then (r, [], false)
  else
    let st2 := setStateF { r with suppress_next_seg_log := true } .CLOSING
    if writeOk then
      (st2.1, st2.2 ++ [.writeStdinEv "q\n", .logEv "일시정지"], true)
    else
      let st4 := setStateF { st2.1 with suppress_next_seg_log := false } .RUNNING
      (st4.1, st2.2 ++ [.errorEv "일시정지 실패"] ++ st4.2, false)

/-- `resume`: no-op in RUNNING; defer via `resume_pending` in CLOSING;
spawn the next segment in PAUSED, and in IDLE only when prior segments
exist; otherwise reject. -/
def resume (r : FFmpegRecorder) (spawnOk : Bool) : FFmpegRecorder × List Ev × Bool :=
  match r.rstate with
  | .RUNNING => (r, [], true)
  | .CLOSING => ({ r with resume_pending := true }, [.logEv "(재개 예약)"], true)
  | .PAUSED => start_new_segment { r with resume_pending := false } spawnOk
  | .IDLE =>
    if r.segments ≠ [] then start_new_segment { r with resume_pending := false } spawnOk
    else (r, [.errorEv "재개할 녹화가 없습니다."], false)

/-- `_on_segment_finished code seg_path who`: clear the handle if it is
the finishing process, record the segment exactly when the exit code is 0
and the file exists with nonzero size (`fileExists`, `fileSize` model
`seg_path.exists()` and `seg_path.stat().st_size`), log saved/skipped
unless suppressed, move CLOSING → PAUSED, then honor a pending deferred
resume once. -/
def on_segment_finished (r : FFmpegRecorder) (code : Int) (seg_path : String)
    (who : Nat) (fileExists : Bool) (fileSize : Nat) (spawnOk : Bool) :
    FFmpegRecorder × List Ev :=
  let rA := if r.proc = some who then { r with proc := Option.none } else r
  let rB := if code = 0 ∧ fileExists ∧ 0 < fileSize then
              { rA with segments := rA.segments ++ [seg_path] } else rA
  let evs1 : List Ev :=
    if code = 0 ∧ fileExists ∧ 0 < fileSize then
      if !rA.suppress_next_seg_log then
        [Ev.logEv ("[segment] saved: " ++ baseName seg_path)] else []
    else
      if !rA.suppress_next_seg_log then
        [Ev.logEv ("[segment] skipped (exit=" ++ toString code ++ ")")] else []
  let rC := if rB.rstate = .CLOSING then (setStateF rB .PAUSED).1 else rB
  let evs2 : List Ev := if rB.rstate = .CLOSING then (setStateF rB .PAUSED).2 else []
  let rD := { rC with suppress_next_seg_log := false }
  if rD.resume_pending then
    let t := start_new_segment { rD with resume_pending := false } spawnOk
    (t.1, evs1 ++ evs2 ++ t.2.1
          ++ (if t.2.2 then [] else [Ev.errorEv "재개 실패(세그먼트 시작 불가)."]))
  else (rD, evs1 ++ evs2)

/-- Outcome of `subprocess.run` for the concat invocation: a completed
run with a return code and stderr text, a `FileNotFoundError` (caught:
"FFmpeg 실행 실패"), or any other exception, which `_finalize_concat`
does not catch and which therefore propagates to `stop`. -/
inductive RunOutcome
  | completed (rc : Int) (stderrTxt : String)
  | fileNotFound
  | raisedOther
deriving DecidableEq

/-- Environment of `_finalize_concat`: whether the final file already
exists (single-segment branch), whether the move and the list-file write
succeed, and the concat-run outcome. -/
structure FinEnv where
  finalExists : Bool
  moveOk : Bool
  writeOk : Bool
  run : RunOutcome
deriving DecidableEq

/-- Python `str.strip()` on both ends. -/
def pyStrip (s : String) : String :=
  String.mk (dropWS (dropWS s.data.reverse).reverse)

/-- `_finalize_concat`: `-1` with no session, `-2` with no usable
segments; a single segment is moved onto the final path (deleting a
stale final first, then best-effort `rmdir`); several segments are
listed in `concat_list.txt` and merged by a `-f concat -c copy` run,
and the intermediates are deleted only after a zero exit code.
`Except.error` marks an exception escaping to `stop` (a non-
`FileNotFoundError` failure of `subprocess.run`).  Exception texts
interpolated into messages are elided. -/
def finalize_concat (r : FFmpegRecorder) (env : FinEnv) : List Ev × Except Unit Int :=
  match r.opt, r.base_ts, r.seg_dir with
  | some opt, some ts, some segd =>
    match r.segments with
    | [] => ([.errorEv "저장할 세그먼트가 없습니다."], .ok (-2))
    | [only] =>
      let final := final_filename opt.output_dir ts
      if env.moveOk then
        ((if env.finalExists then [Ev.unlinkEv final] else [])
          ++ [.moveEv only final, .rmdirEv segd,
              .logEv ("[merge] single segment → " ++ baseName final)], .ok 0)
      else
        ((if env.finalExists then [Ev.unlinkEv final] else [])
          ++ [.errorEv "파일 이동 실패"], .ok (-3))
    | _ :: _ :: _ =>
      let final := final_filename opt.output_dir ts
      let lst := segd ++ "/concat_list.txt"
      if !env.writeOk then ([.errorEv "concat 리스트 작성 실패"], .ok (-4))
      else
        let content := String.join (r.segments.map concatListLine)
        let cmd := [opt.ffmpeg_path, "-hide_banner", "-y",
                    "-f", "concat", "-safe", "0", "-i", lst,
                    "-c", "copy", final]
        let evs0 := [Ev.writeFileEv lst content,
                     Ev.logEv ("실행: " ++ String.intercalate " " cmd),
                     Ev.runProcEv cmd]
        match env.run with
        | .completed rc stderrTxt =>
          if rc ≠ 0 then
            (evs0 ++ [.errorEv ("concat 실패: " ++ pyStrip stderrTxt)], .ok rc)
          else
            (evs0 ++ [.logEv ("[merge] " ++ toString r.segments.length
                              ++ "개 세그먼트 병합 완료 → " ++ baseName final)]
                  ++ r.segments.map Ev.unlinkEv
                  ++ [.unlinkEv lst, .rmdirEv segd], .ok 0)
        | .fileNotFound => (evs0 ++ [.errorEv "FFmpeg 실행 실패(경로 확인)."], .ok (-5))
        | .raisedOther => (evs0, .error ())
  | _, _, _ => ([], .ok (-1))

/-- Environment of `stop`: the exit status of the in-flight segment
process (`exitCode`, `fileExists`, `fileSize` feed the completion handler
that Qt delivers during `waitForFinished`), the results of the two
bounded waits, and the finalization environment. -/
structure StopEnv where
  exitCode : Int
  fileExists : Bool
  fileSize : Nat
  finished1 : Bool
  finished2 : Bool
  fin : FinEnv
deriving DecidableEq

/-- `stop`: clear any deferred resume, drive the current process down the
graceful-stop ladder (`q`, then `terminate`, then `kill`), finalize, and
in all cases — the `finally` block — clear the handle, set IDLE and emit
`stopped` with the result code; an exception escaping finalization is
converted to an error report and code `-1`.  When the process only dies
after `kill`, its completion handler fires after `stop` (not inside it),
matching Qt's delivery. -/
def stop (r : FFmpegRecorder) (env : StopEnv) : FFmpegRecorder × List Ev × Int :=
  let r0 := { r with resume_pending := false }
  let pre : FFmpegRecorder × List Ev :=
    match r0.proc, r0.cur_seg with
    | some pid, some sp =>
      if env.finished1 then
        let t := on_segment_finished r0 env.exitCode sp pid env.fileExists env.fileSize false
        (t.1, [Ev.writeStdinEv "q\n"] ++ t.2)
      else if env.finished2 then
        let t := on_segment_finished r0 env.exitCode sp pid env.fileExists env.fileSize false
        (t.1, [Ev.writeStdinEv "q\n", Ev.terminateEv] ++ t.2)
      else (r0, [Ev.writeStdinEv "q\n", Ev.terminateEv, Ev.killEv])
    | _, _ => (r0, [])
  let fr := finalize_concat pre.1 env.fin
  let code : Int := match fr.2 with | .ok c => c | .error _ => -1
  let evs3 : List Ev := match fr.2 with | .ok _ => [] | .error _ => [.errorEv "정지 처리 중 오류"]
  let fin := setStateF { pre.1 with proc := Option.none } .IDLE
  (fin.1, pre.2 ++ fr.1 ++ evs3 ++ fin.2 ++ [.stoppedEv code], code)

/-! ## Concrete instances used by the witness and counterexample theorems -/

/-- Primary-monitor geometry used in concrete runs. -/
def mon0 : MonitorInfo := ⟨0, 0, 0, 1920, 1080⟩

/-- A concrete option set: dshow audio with a device and a 500 ms delay. -/
def opt0 : FFmpegOptions :=
  { ffmpeg_path := "C:/ffmpeg/bin/ffmpeg.exe", output_dir := "C:/rec", fps := 30,
    preset := "veryfast", monitor := mon0, audio_mode := .dshow,
    audio_device := some "@device_cm_guid", encoder := .libx264, audio_delay_ms := 500 }

/-- The path of the first segment of the session started at the concrete
timestamp below. -/
def seg01 : String := "C:/rec/.segments_20250101_000000/seg01.mp4"

/-- State after a successful `start` from the initial state. -/
def rec1 : FFmpegRecorder := (start {} opt0 true "20250101_000000" true).1

/-- State after `pause` in `rec1`: CLOSING, suppression flag set. -/
def rec2 : FFmpegRecorder := (pause rec1 true).1

/-- State after the paused segment's process exits cleanly with a valid
file: PAUSED, handle cleared, one recorded segment. -/
def rec3 : FFmpegRecorder := (on_segment_finished rec2 0 seg01 0 true 100 false).1

/-- A decoding environment in which every step before the lossy fallback
fails: strict UTF-8 raises, the locale decode raises, no detector. -/
def env0 : DecodeEnv :=
  { utf8Strict := fun _ => .error (), localeDec := fun _ => .error (),
    chardetAvail := false, chardetGuess := fun _ => .ok Option.none,
    decodeWith := fun _ _ => .error (), utf8Lossy := fun _ => "lossy" }

/-- Absence of accidental collisions between the option strings and the
literal `-itsoffset`: the user-supplied strings interpolated into the
command are not themselves the time-offset flag. -/
def NoItsoffsetCollision (opt : FFmpegOptions) (out_file : String) : Prop :=
  "-itsoffset" ∉ [opt.ffmpeg_path, toString opt.fps, toString opt.monitor.x,
                  toString opt.monitor.y,
                  toString opt.monitor.width ++ "x" ++ toString opt.monitor.height,
                  opt.preset, out_file] ∧
  ∀ dev, opt.audio_device = some dev → "audio=" ++ dev ≠ "-itsoffset"

/-- Probe output with a duplicated declaration, for the de-duplication
witness. -/
def lines8 : List (List Char) := ["\"Mic\" (audio)".data, "\"Mic\" (audio)".data]

/-- The second segment's path in the concrete session. -/
def seg02 : String := "C:/rec/.segments_20250101_000000/seg02.mp4"

/-- State after `resume` from the paused state `rec3`: RUNNING again on
segment 2. -/
def rec5 : FFmpegRecorder := (resume rec3 true).1

/-- State after pausing again and letting segment 2 finish: PAUSED with
two recorded segments and no process handle. -/
def rec6 : FFmpegRecorder :=
  (on_segment_finished (pause rec5 true).1 0 seg02 1 true 100 false).1

/-- State after `resume` while CLOSING (`rec2`): the deferred-resume flag
is set with the in-flight process still live. -/
def recR : FFmpegRecorder := (resume rec2 true).1

/-! ## Theorems -/

/-- Defining equation of the de-duplication loop. -/
theorem dedupDevices_cons (seen : List (String × String)) (d : DshowDevice)
    (ds : List DshowDevice) :
    dedupDevices seen (d :: ds) =
      if devKey d ∈ seen then dedupDevices seen ds
      else d :: dedupDevices (devKey d :: seen) ds := rfl

/-- The `(display, alt)` pair determines the descriptor. -/
theorem devKey_inj {a b : DshowDevice} (h : devKey a = devKey b) : a = b := by
  cases a; cases b
  simpa [devKey, DshowDevice.mk.injEq, Prod.ext_iff] using h

/-- De-duplication only removes elements, preserving relative order. -/
theorem dedupDevices_sublist (seen : List (String × String)) (ds : List DshowDevice) :
    List.Sublist (dedupDevices seen ds) ds := by
  induction ds generalizing seen with
  | nil => simp [dedupDevices]
  | cons d ds ih =>
    rw [dedupDevices_cons]
    by_cases h : devKey d ∈ seen
    · rw [if_pos h]; exact List.Sublist.cons d (ih seen)
    · rw [if_neg h]; exact List.Sublist.cons₂ d (ih _)

/-- Keys already seen never reappear in the de-duplicated output. -/
theorem mem_dedupDevices_key_not_seen {seen : List (String × String)}
    {ds : List DshowDevice} {d : DshowDevice}
    (h : d ∈ dedupDevices seen ds) : devKey d ∉ seen := by
  induction ds generalizing seen with
  | nil => simp [dedupDevices] at h
  | cons d0 ds ih =>
    rw [dedupDevices_cons] at h
    by_cases h0 : devKey d0 ∈ seen
    · rw [if_pos h0] at h; exact ih h
    · rw [if_neg h0] at h
      rcases List.mem_cons.mp h with rfl | hmem
      · exact h0
      · intro hs
        exact ih hmem (List.mem_cons_of_mem _ hs)

/-- The de-duplicated output has pairwise-distinct keys. -/
theorem dedupDevices_key_nodup (seen : List (String × String)) (ds : List DshowDevice) :
    ((dedupDevices seen ds).map devKey).Nodup := by
  induction ds generalizing seen with
  | nil => simp [dedupDevices]
  | cons d0 ds ih =>
    rw [dedupDevices_cons]
    by_cases h0 : devKey d0 ∈ seen
    · rw [if_pos h0]; exact ih seen
    · rw [if_neg h0]
      simp only [List.map_cons, List.nodup_cons]
      refine ⟨?_, ih _⟩
      intro hmem
      obtain ⟨d, hd, hkey⟩ := List.mem_map.mp hmem
      exact mem_dedupDevices_key_not_seen hd (hkey ▸ List.mem_cons_self _ _)

/-- De-duplication drops only duplicates: every scanned descriptor whose
key is unseen survives. -/
theorem mem_dedupDevices_of_mem {d : DshowDevice} (seen : List (String × String))
    (ds : List DshowDevice) (hd : d ∈ ds) :
    devKey d ∈ seen ∨ d ∈ dedupDevices seen ds := by
  induction ds generalizing seen with
  | nil => cases hd
  | cons d0 ds ih =>
    rw [dedupDevices_cons]
    rcases List.mem_cons.mp hd with rfl | hmem
    · by_cases h0 : devKey d ∈ seen
      · exact Or.inl h0
      · right; rw [if_neg h0]; exact List.mem_cons_self _ _
    · by_cases h0 : devKey d0 ∈ seen
      · rw [if_pos h0]; exact ih seen hmem
      · rw [if_neg h0]
        rcases ih (devKey d0 :: seen) hmem with h | h
        · rcases List.mem_cons.mp h with hk | hk
          · exact Or.inr (List.mem_cons.mpr (Or.inl (devKey_inj hk)))
          · exact Or.inl hk
        · exact Or.inr (List.mem_cons_of_mem _ h)

/-- Pushing a pairwise first-occurrence-index bound under a fresh head,
provided the head occurs nowhere in the list. -/
theorem pairwise_indexOf_shift {ds : List DshowDevice} {d0 : DshowDevice}
    {out : List DshowDevice} (hne : ∀ d ∈ out, d ≠ d0)
    (hp : List.Pairwise (fun a b => ds.indexOf a < ds.indexOf b) out) :
    List.Pairwise (fun a b => (d0 :: ds).indexOf a < (d0 :: ds).indexOf b) out := by
  induction out with
  | nil => exact List.Pairwise.nil
  | cons x xs ih =>
    rcases List.pairwise_cons.mp hp with ⟨hx, hxs⟩
    refine List.pairwise_cons.mpr
      ⟨?_, ih (fun d hd => hne d (List.mem_cons_of_mem _ hd)) hxs⟩
    intro b hb
    rw [List.indexOf_cons_ne _ (Ne.symm (hne x (List.mem_cons_self _ _))),
        List.indexOf_cons_ne _ (Ne.symm (hne b (List.mem_cons_of_mem _ hb)))]
    exact Nat.succ_lt_succ (hx b hb)

/-- The de-duplicated output is ordered by first occurrence in the
scanned list. -/
theorem dedupDevices_pairwise_indexOf (seen : List (String × String))
    (ds : List DshowDevice) :
    List.Pairwise (fun a b => ds.indexOf a < ds.indexOf b) (dedupDevices seen ds) := by
  induction ds generalizing seen with
  | nil => simp [dedupDevices]
  | cons d0 ds ih =>
    rw [dedupDevices_cons]
    by_cases h0 : devKey d0 ∈ seen
    · rw [if_pos h0]
      refine pairwise_indexOf_shift (fun d hd e => ?_) (ih seen)
      exact mem_dedupDevices_key_not_seen hd (by cases e; exact h0)
    · rw [if_neg h0]
      refine List.pairwise_cons.mpr ⟨?_, ?_⟩
      · intro b hb
        have hbne : b ≠ d0 := fun e =>
          mem_dedupDevices_key_not_seen hb (by cases e; exact List.mem_cons_self _ _)
        rw [List.indexOf_cons_self, List.indexOf_cons_ne _ (Ne.symm hbne)]
        exact Nat.succ_pos _
      · refine pairwise_indexOf_shift (fun d hd e => ?_) (ih _)
        exact mem_dedupDevices_key_not_seen hd (by cases e; exact List.mem_cons_self _ _)

/-- C8.  For every input text the device catalog parser yields a list
with no duplicate `(displayName, alternateName)` pairs; the output is an
order-preserving sublist of the scanned descriptors containing every
scanned descriptor and sorted by index of first occurrence in the scan
(distinct pairs keep their first-seen order), and parsing the same input
twice yields the identical list (the parser is a pure function of its
input). -/
theorem parser_dedup_idempotent (lines : List (List Char)) :
    ((list_dshow_audio_devices lines).map devKey).Nodup ∧
    List.Sublist (list_dshow_audio_devices lines) (scanDevices lines) ∧
    (∀ d, d ∈ scanDevices lines → d ∈ list_dshow_audio_devices lines) ∧
    List.Pairwise
      (fun a b => (scanDevices lines).indexOf a < (scanDevices lines).indexOf b)
      (list_dshow_audio_devices lines) ∧
    list_dshow_audio_devices lines = list_dshow_audio_devices lines := by
  refine ⟨dedupDevices_key_nodup [] _, dedupDevices_sublist [] _, ?_,
    dedupDevices_pairwise_indexOf [] _, rfl⟩
  intro d hd
  rcases mem_dedupDevices_of_mem [] _ hd with h | h
  · cases h
  · exact h

/-- Witness for `parser_dedup_idempotent` on a duplicated declaration. -/
theorem parser_dedup_idempotent_witness :
    (⟨"Mic", ""⟩ : DshowDevice) ∈ scanDevices lines8 ∧
    (⟨"Mic", ""⟩ : DshowDevice) ∈ list_dshow_audio_devices lines8 ∧
    ((list_dshow_audio_devices lines8).map devKey).Nodup :=
  ⟨by decide, (parser_dedup_idempotent lines8).2.2.1 _ (by decide),
   (parser_dedup_idempotent lines8).1⟩

/-- C2 (amended).  A declaration line always carries a kind token (the
declaration pattern requires `(audio)` or `(video)`; a line lacking the
token does not match and yields no device).  A matched declaration is
classified audio iff its kind token is `audio`, or its kind token is
`video` but the line's lowercased text contains the literal `(audio)`
while the parser's audio-section flag is off — i.e. before any section
header *or inside an explicit video section*; with no header seen an
`audio`-kind declaration is accepted.  (The claim's "kind token is
missing" case is impossible, and its "not in video section" guard is
actually "not in audio section": see the counterexample.) -/
theorem audio_decl_classification (st : ScanSt) (line name : List Char) (kind : DKind)
    (hna : containsSub line audioHdr = false)
    (hnv : containsSub line videoHdr = false)
    (hdev : devMatch line = some (name, kind)) :
    (scanCore st line =
      (if declAccepted st.in_audio kind line = true then
        { st with devices := st.devices ++ [⟨String.mk name, ""⟩],
                  last_idx := some st.devices.length }
      else st)) ∧
    (declAccepted st.in_audio kind line = true ↔
      kind = DKind.audio ∨
        (st.in_audio = false ∧
          containsSub (line.map lowerChar) "(audio)".data = true)) := by
  constructor
  · simp only [scanCore, hna, hnv, hdev]
    split <;> simp_all
  · simp [declAccepted, Bool.or_eq_true, Bool.and_eq_true, decide_eq_true_iff]

/-- Counterexample to C2 as stated: a declaration lacking a kind token
but containing the literal `(audio)`, with no section header seen, is
NOT classified as audio — it does not match the declaration pattern at
all and the parse yields no device, while the claim (and the spec's
example) says it "is still classified as audio". -/
theorem missing_kind_token_not_classified_cex :
    containsSub ("\"Virtual Mic (audio)\"".data.map lowerChar) "(audio)".data = true ∧
    devMatch "\"Virtual Mic (audio)\"".data = Option.none ∧
    list_dshow_audio_devices ["\"Virtual Mic (audio)\"".data] = [] := by decide

/-- Witness for `audio_decl_classification`: a `video`-kind declaration
whose name contains `(audio)` is classified audio with no section header
seen. -/
theorem audio_decl_classification_witness :
    scanCore ⟨[], false, Option.none⟩ "\"Cam (audio) HD\" (video)".data =
      ⟨[⟨"Cam (audio) HD", ""⟩], false, some 0⟩ ∧
    declAccepted false DKind.video "\"Cam (audio) HD\" (video)".data = true := by
  have h := audio_decl_classification ⟨[], false, Option.none⟩
    "\"Cam (audio) HD\" (video)".data "Cam (audio) HD".data DKind.video
    (by decide) (by decide) (by decide)
  exact ⟨by rw [h.1]; decide, by decide⟩

/-- C10.  A matched declaration line that is rejected by the audio test
leaves the whole scan state — in particular the "last open" pointer —
unchanged; an alternate-name line with an open pointer overwrites the
`alt` field of the pointed-at (most recently added) descriptor, whatever
its previous value, leaving the pointer in place. -/
theorem alt_line_attach_overwrite :
    (∀ (st : ScanSt) (line name : List Char) (kind : DKind),
      containsSub line audioHdr = false → containsSub line videoHdr = false →
      devMatch line = some (name, kind) →
      declAccepted st.in_audio kind line = false →
      scanCore st line = st) ∧
    (∀ (st : ScanSt) (line alt : List Char) (i : Nat),
      containsSub line audioHdr = false → containsSub line videoHdr = false →
      devMatch line = Option.none → altMatch line = some alt →
      st.last_idx = some i →
      (scanCore st line).devices = setAltAt st.devices i (String.mk alt) ∧
      (scanCore st line).last_idx = some i) ∧
    (∀ (ds : List DshowDevice) (i : Nat) (a : String) (d : DshowDevice),
      ds.get? i = some d → (setAltAt ds i a).get? i = some { d with alt := a }) := by
  refine ⟨?_, ?_, ?_⟩
  · intro st line name kind hna hnv hdev hrej
    simp only [scanCore, hna, hnv, hdev]
    simp [hrej]
  · intro st line alt i hna hnv hdev halt hlast
    simp only [scanCore, hna, hnv, hdev, halt, hlast]
    exact ⟨rfl, rfl⟩
  · intro ds
    induction ds with
    | nil => intro i a d h; cases h
    | cons d0 ds ih =>
      intro i a d h
      cases i with
      | zero => simp_all [setAltAt]
      | succ n => simpa [setAltAt] using ih n a d (by simpa using h)

/-- Witness for `alt_line_attach_overwrite`: a rejected video declaration
keeps the pointer; the following alternate-name line overwrites the
existing alternate name of the pointed-at audio descriptor. -/
theorem alt_line_attach_overwrite_witness :
    scanCore ⟨[⟨"Mic", "old"⟩], false, some 0⟩ "\"Cam\" (video)".data =
      ⟨[⟨"Mic", "old"⟩], false, some 0⟩ ∧
    (scanCore ⟨[⟨"Mic", "old"⟩], false, some 0⟩
        "Alternative name \"newalt\"".data).devices = [⟨"Mic", "newalt"⟩] := by
  have h1 := alt_line_attach_overwrite.1 ⟨[⟨"Mic", "old"⟩], false, some 0⟩
    "\"Cam\" (video)".data "Cam".data DKind.video
    (by decide) (by decide) (by decide) (by decide)
  have h2 := (alt_line_attach_overwrite.2.1 ⟨[⟨"Mic", "old"⟩], false, some 0⟩
    "Alternative name \"newalt\"".data "newalt".data 0
    (by decide) (by decide) (by decide) (by decide) (by decide)).1
  exact ⟨h1, by rw [h2]; decide⟩

/-- C7.  For every byte sequence (and every behavior of the runtime
decoding primitives) the decoder returns a string: its result is a plain
`String`, never an exception, and the cascade is tried in order — strict
UTF-8 accepted only without replacement/mojibake markers, then the local
default encoding accepted without replacement markers, then a detector
guess when a detector is available and yields a usable encoding, and
finally lossy UTF-8 (`utf8Lossy`, total) when every earlier step falls
through. -/
theorem smart_decode_cascade (env : DecodeEnv) (b : List Nat) :
    (∀ t, env.utf8Strict b = .ok t → hasMojibake t = false → smart_decode env b = t) ∧
    (strictRejected env b →
      ∀ t, env.localeDec b = .ok t → hasReplacement t = false → smart_decode env b = t) ∧
    (strictRejected env b → localeRejected env b →
      ∀ e t, env.chardetAvail = true → env.chardetGuess b = .ok (some e) → e ≠ "" →
        env.decodeWith e b = .ok t → smart_decode env b = t) ∧
    (strictRejected env b → localeRejected env b → chardetFallsThrough env b →
      smart_decode env b = env.utf8Lossy b) := by
  refine ⟨?_, ?_, ?_, ?_⟩
  · intro t h1 h2
    simp [smart_decode, h1, h2]
  · intro hs t h2 h3
    rcases hstrict : env.utf8Strict b with e | t0
    · simp [smart_decode, hstrict, h2, h3]
    · have hm := hs t0 hstrict
      simp [smart_decode, hstrict, hm, h2, h3]
  · intro hs hl e t hav hg hne hd
    rcases hstrict : env.utf8Strict b with u | t0
    · rcases hloc : env.localeDec b with u2 | t1
      · simp [smart_decode, hstrict, hloc, hav, hg, hne, hd]
      · have := hl t1 hloc
        simp [smart_decode, hstrict, hloc, this, hav, hg, hne, hd]
    · have hm := hs t0 hstrict
      rcases hloc : env.localeDec b with u2 | t1
      · simp [smart_decode, hstrict, hm, hloc, hav, hg, hne, hd]
      · have := hl t1 hloc
        simp [smart_decode, hstrict, hm, hloc, this, hav, hg, hne, hd]
  · intro hs hl hc
    have step3eq : (if env.chardetAvail then
        (match env.chardetGuess b with
          | .ok (some enc2) =>
            if enc2 ≠ "" then
              match env.decodeWith enc2 b with
              | .ok t => t
              | .error _ => env.utf8Lossy b
            else env.utf8Lossy b
          | .ok Option.none => env.utf8Lossy b
          | .error _ => env.utf8Lossy b)
      else env.utf8Lossy b) = env.utf8Lossy b := by
      rcases hav : env.chardetAvail with _ | _
      · simp
      · have hc' := hc hav
        rcases hg : env.chardetGuess b with u | og
        · simp [hg]
        · rcases og with _ | e
          · simp [hg]
          · rw [hg] at hc'
            simp only at hc'
            rcases hc' with rfl | hde
            · simp [hg]
            · simp [hg, hde]
    rcases hstrict : env.utf8Strict b with u | t0
    · rcases hloc : env.localeDec b with u2 | t1
      · simpa [smart_decode, hstrict, hloc] using step3eq
      · have := hl t1 hloc
        simpa [smart_decode, hstrict, hloc, this] using step3eq
    · have hm := hs t0 hstrict
      rcases hloc : env.localeDec b with u2 | t1
      · simpa [smart_decode, hstrict, hm, hloc] using step3eq
      · have := hl t1 hloc
        simpa [smart_decode, hstrict, hm, hloc, this] using step3eq

/-- Witness for `smart_decode_cascade`: with every step failing, the
decoder still returns the lossy fallback string. -/
theorem smart_decode_cascade_witness : smart_decode env0 [255] = "lossy" :=
  (smart_decode_cascade env0 [255]).2.2.2
    (fun _ h => nomatch h) (fun _ h => nomatch h) (fun h => nomatch h)

/-- `_set_state` characterised: update only on change. -/
theorem setStateF_fst (r : FFmpegRecorder) (s : RState) :
    (setStateF r s).1 = if r.rstate = s then r else { r with rstate := s } := by
  unfold setStateF; split <;> rfl

/-- After `_set_state s` the state is `s`. -/
theorem setStateF_fst_rstate (r : FFmpegRecorder) (s : RState) :
    (setStateF r s).1.rstate = s := by
  unfold setStateF; split <;> simp_all

/-- `_set_state` does not touch the process handle. -/
theorem setStateF_fst_proc (r : FFmpegRecorder) (s : RState) :
    (setStateF r s).1.proc = r.proc := by
  unfold setStateF; split <;> rfl

/-- C1 (amended).  `start` is rejected — returning failure with the
"already running" error and a completely unchanged recorder — exactly
when a process handle exists or the state is RUNNING or CLOSING; with no
handle it succeeds from IDLE *and equally from PAUSED* (where the handle
is always already cleared), creating a fresh session (empty segment
list, new timestamp) and spawning segment 1 into RUNNING.  The claimed
rejection in PAUSED does not hold: see the counterexample, where a
second `start` from a reachable paused state is accepted and discards
the previous session's segment list. -/
theorem start_guard_characterisation (r : FFmpegRecorder) (opt : FFmpegOptions) (ts : String) :
    ((r.rstate = RState.RUNNING ∨ r.rstate = RState.CLOSING ∨ r.proc.isSome = true) →
      ∀ (pe sOk : Bool) (ts' : String),
        start r opt pe ts' sOk = (r, [Ev.errorEv "이미 녹화가 실행 중입니다."], false)) ∧
    (r.proc = Option.none → (r.rstate = RState.IDLE ∨ r.rstate = RState.PAUSED) →
      (start r opt true ts true).2.2 = true ∧
      (start r opt true ts true).1.rstate = RState.RUNNING ∧
      (start r opt true ts true).1.opt = some opt ∧
      (start r opt true ts true).1.base_ts = some ts ∧
      (start r opt true ts true).1.segments = [] ∧
      (start r opt true ts true).1.proc = some r.nextPid ∧
      (start r opt true ts true).1.cur_seg =
        some (segment_filename (opt.output_dir ++ "/.segments_" ++ ts) 1) ∧
      Ev.startedEv ∈ (start r opt true ts true).2.1 ∧
      Ev.spawnEv (build_command opt
          (segment_filename (opt.output_dir ++ "/.segments_" ++ ts) 1))
        ∈ (start r opt true ts true).2.1) := by
  constructor
  · intro hrej pe sOk ts'
    rcases hrej with h | h | h <;>
      simp [start, is_recording, h]
  · intro hproc hstate
    rcases hstate with h | h <;>
      simp [start, start_new_segment, setStateF, is_recording, hproc, h,
        segment_filename]

/-- Counterexample to C1 as stated: in the reachable PAUSED state `rec3`
(start, pause, clean segment exit) a second `start` is NOT rejected — it
returns success and wipes the session's recorded segment list. -/
theorem start_in_paused_accepted_cex :
    rec3.rstate = RState.PAUSED ∧ rec3.proc = Option.none ∧ rec3.segments = [seg01] ∧
    (start rec3 opt0 true "20250101_000100" true).2.2 = true ∧
    (start rec3 opt0 true "20250101_000100" true).1.segments = [] := by decide

/-- Witness for `start_guard_characterisation`: rejection while RUNNING,
success from the initial IDLE state. -/
theorem start_guard_characterisation_witness :
    start rec1 opt0 true "x" true = (rec1, [Ev.errorEv "이미 녹화가 실행 중입니다."], false) ∧
    (start ({} : FFmpegRecorder) opt0 true "20250101_000000" true).2.2 = true := by
  constructor
  · exact (start_guard_characterisation rec1 opt0 "x").1 (Or.inl (by decide)) true true "x"
  · exact ((start_guard_characterisation {} opt0 "20250101_000000").2 rfl (Or.inl rfl)).1

/-- C4.  `resume` semantics: a no-op success in RUNNING; in CLOSING it
records a deferred resume (`resume_pending`) and succeeds; in PAUSED it
spawns the next segment and enters RUNNING (keeping the recorded
segments); in IDLE it spawns the next segment only when prior segments
exist and is rejected otherwise.  The deferred resume is honored exactly
once: when the in-flight process exits, the completion handler spawns
the next segment, returns to RUNNING and clears the flag. -/
theorem resume_semantics :
    (∀ (r : FFmpegRecorder) (sOk : Bool), r.rstate = RState.RUNNING →
      resume r sOk = (r, [], true)) ∧
    (∀ (r : FFmpegRecorder) (sOk : Bool), r.rstate = RState.CLOSING →
      resume r sOk = ({ r with resume_pending := true }, [Ev.logEv "(재개 예약)"], true)) ∧
    (∀ (r : FFmpegRecorder), r.rstate = RState.PAUSED →
      r.opt.isSome = true → r.base_ts.isSome = true → r.seg_dir.isSome = true →
      (resume r true).2.2 = true ∧ (resume r true).1.rstate = RState.RUNNING ∧
      (resume r true).1.proc = some r.nextPid ∧
      (resume r true).1.segments = r.segments) ∧
    (∀ (r : FFmpegRecorder), r.rstate = RState.IDLE →
      (r.segments = [] → resume r true = (r, [Ev.errorEv "재개할 녹화가 없습니다."], false)) ∧
      (r.segments ≠ [] → r.opt.isSome = true → r.base_ts.isSome = true →
        r.seg_dir.isSome = true →
        (resume r true).2.2 = true ∧ (resume r true).1.rstate = RState.RUNNING)) ∧
    (∀ (r : FFmpegRecorder) (pid : Nat) (code : Int) (sp : String) (ex : Bool) (sz : Nat),
      r.rstate = RState.CLOSING → r.proc = some pid → r.resume_pending = true →
      r.opt.isSome = true → r.base_ts.isSome = true → r.seg_dir.isSome = true →
      (on_segment_finished r code sp pid ex sz true).1.rstate = RState.RUNNING ∧
      (on_segment_finished r code sp pid ex sz true).1.resume_pending = false ∧
      (on_segment_finished r code sp pid ex sz true).1.proc.isSome = true) := by
  refine ⟨?_, ?_, ?_, ?_, ?_⟩
  · intro r sOk h
    simp [resume, h]
  · intro r sOk h
    simp [resume, h]
  · intro r h ho hts hsd
    obtain ⟨o, ho⟩ := Option.isSome_iff_exists.mp ho
    obtain ⟨ts, hts⟩ := Option.isSome_iff_exists.mp hts
    obtain ⟨sd, hsd⟩ := Option.isSome_iff_exists.mp hsd
    simp [resume, h, start_new_segment, ho, hts, hsd, setStateF]
  · intro r h
    constructor
    · intro hseg
      simp [resume, h, hseg]
    · intro hseg ho hts hsd
      obtain ⟨o, ho⟩ := Option.isSome_iff_exists.mp ho
      obtain ⟨ts, hts⟩ := Option.isSome_iff_exists.mp hts
      obtain ⟨sd, hsd⟩ := Option.isSome_iff_exists.mp hsd
      simp [resume, h, hseg, start_new_segment, ho, hts, hsd, setStateF]
  · intro r pid code sp ex sz h hproc hpend ho hts hsd
    obtain ⟨o, ho⟩ := Option.isSome_iff_exists.mp ho
    obtain ⟨ts, hts⟩ := Option.isSome_iff_exists.mp hts
    obtain ⟨sd, hsd⟩ := Option.isSome_iff_exists.mp hsd
    by_cases hc : (code = 0 ∧ ex = true ∧ 0 < sz)
    · simp [on_segment_finished, h, hproc, hpend, ho, hts, hsd, hc,
        start_new_segment, setStateF]
    · simp [on_segment_finished, h, hproc, hpend, ho, hts, hsd, hc,
        start_new_segment, setStateF]

/-- Witness for `resume_semantics`: no-op resume while RUNNING, and a
deferred resume set while CLOSING is honored on segment exit. -/
theorem resume_semantics_witness :
    resume rec5 true = (rec5, [], true) ∧
    recR.resume_pending = true ∧
    (on_segment_finished recR 0 seg01 0 true 100 true).1.rstate = RState.RUNNING ∧
    (on_segment_finished recR 0 seg01 0 true 100 true).1.resume_pending = false := by
  refine ⟨resume_semantics.1 rec5 true (by decide), by decide, ?_, ?_⟩
  · exact (resume_semantics.2.2.2.2 recR 0 0 seg01 true 100
      (by decide) (by decide) (by decide) (by decide) (by decide) (by decide)).1
  · exact (resume_semantics.2.2.2.2 recR 0 0 seg01 true 100
      (by decide) (by decide) (by decide) (by decide) (by decide) (by decide)).2.1

theorem setStateF_fst_segments (r : FFmpegRecorder) (s : RState) :
    (setStateF r s).1.segments = r.segments := by
  unfold setStateF; split <;> rfl

theorem setStateF_fst_resume (r : FFmpegRecorder) (s : RState) :
    (setStateF r s).1.resume_pending = r.resume_pending := by
  unfold setStateF; split <;> rfl

theorem setStateF_snd (r : FFmpegRecorder) (s : RState) :
    (setStateF r s).2 = if r.rstate = s then [] else [Ev.stateChangedEv s] := by
  unfold setStateF; split <;> simp_all

theorem start_new_segment_segments (r : FFmpegRecorder) (sOk : Bool) :
    (start_new_segment r sOk).1.segments = r.segments := by
  rcases ho : r.opt with _ | o <;> rcases hts : r.base_ts with _ | ts <;>
    rcases hsd : r.seg_dir with _ | sd <;> cases sOk <;>
      simp [start_new_segment, ho, hts, hsd, setStateF_fst_segments]

/-- C5 (amended).  A finished segment is appended to the session's
segment list iff its exit code is 0 and the file exists with nonzero
size.  Otherwise it is dropped; a skip message is logged only when the
pause-time suppression flag is clear (after `pause`, the very next
segment exit is logged neither as saved nor as skipped), and (absent a
deferred resume) the session continues: no stop signal, no error, and
the state merely settles CLOSING → PAUSED. -/
theorem segment_recorded_iff (r : FFmpegRecorder) (code : Int) (sp : String)
    (who : Nat) (ex : Bool) (sz : Nat) (sOk : Bool) :
    ((on_segment_finished r code sp who ex sz sOk).1.segments =
      (if code = 0 ∧ ex = true ∧ 0 < sz then r.segments ++ [sp] else r.segments)) ∧
    (¬(code = 0 ∧ ex = true ∧ 0 < sz) →
      (r.suppress_next_seg_log = false →
        Ev.logEv ("[segment] skipped (exit=" ++ toString code ++ ")")
          ∈ (on_segment_finished r code sp who ex sz sOk).2) ∧
      (r.resume_pending = false →
        (∀ c, Ev.stoppedEv c ∉ (on_segment_finished r code sp who ex sz sOk).2) ∧
        (∀ m, Ev.errorEv m ∉ (on_segment_finished r code sp who ex sz sOk).2) ∧
        (on_segment_finished r code sp who ex sz sOk).1.rstate =
          (if r.rstate = RState.CLOSING then RState.PAUSED else r.rstate))) := by
  constructor
  · by_cases hw : r.proc = some who <;>
      by_cases hc : (code = 0 ∧ ex = true ∧ 0 < sz) <;>
        by_cases hcl : r.rstate = RState.CLOSING <;>
          by_cases hp : r.resume_pending = true <;>
            simp [on_segment_finished, hw, hc, hcl, hp, setStateF,
              start_new_segment_segments]
  · intro hc
    constructor
    · intro hsup
      by_cases hw : r.proc = some who <;>
        by_cases hcl : r.rstate = RState.CLOSING <;>
          by_cases hp : r.resume_pending = true <;>
            simp [on_segment_finished, hw, hc, hcl, hp, hsup, setStateF]
    · intro hpend
      by_cases hw : r.proc = some who <;>
        by_cases hcl : r.rstate = RState.CLOSING <;>
          by_cases hsup : r.suppress_next_seg_log = true <;>
            simp [on_segment_finished, hw, hc, hcl, hpend, hsup, setStateF]

/-- Counterexample to C5 as stated: in the reachable CLOSING state
`rec2` the suppression flag set by `pause` is active, so a failing
segment exit (code 1) is dropped with NO skip log message — the only
event is the CLOSING → PAUSED transition. -/
theorem skip_log_suppressed_cex :
    rec2.suppress_next_seg_log = true ∧
    (on_segment_finished rec2 1 seg01 0 true 100 false).1.segments = [] ∧
    (on_segment_finished rec2 1 seg01 0 true 100 false).2 =
      [Ev.stateChangedEv RState.PAUSED] := by decide

/-- Witness for `segment_recorded_iff`: unsuppressed failing exit logs
the skip message and records nothing; a clean exit records the
segment. -/
theorem segment_recorded_iff_witness :
    Ev.logEv "[segment] skipped (exit=1)"
      ∈ (on_segment_finished rec1 1 seg01 0 true 100 false).2 ∧
    (on_segment_finished rec1 1 seg01 0 true 100 false).1.segments = [] ∧
    (on_segment_finished rec1 0 seg01 0 true 100 false).1.segments = [seg01] := by
  refine ⟨?_, ?_, ?_⟩
  · have h := ((segment_recorded_iff rec1 1 seg01 0 true 100 false).2
      (by decide)).1 (by decide)
    simpa using h
  · have h := (segment_recorded_iff rec1 1 seg01 0 true 100 false).1
    rw [h]; decide
  · have h := (segment_recorded_iff rec1 0 seg01 0 true 100 false).1
    rw [h]; decide

/-- C6.  Finalization: with zero usable segments it reports "nothing to
save" (code -2) performing no filesystem action; with exactly one
segment it moves that file onto the final output path (code 0); with
more than one it writes the ordered list file whose content references
every segment (`file \x27<forward-slash, quote-escaped path>\x27` lines)
and runs the external tool in stream-copy concat mode (`-f concat -c
copy`), deleting the segment files, the list file and the segment
directory only after a zero return code; a nonzero return code, a failed
list write, a failed move or a missing tool reports an error and
performs no deletion of the intermediates. -/
theorem finalize_concat_semantics (r : FFmpegRecorder) (o : FFmpegOptions)
    (ts segd : String) (env : FinEnv)
    (ho : r.opt = some o) (hts : r.base_ts = some ts) (hsd : r.seg_dir = some segd) :
    (r.segments = [] →
      finalize_concat r env =
        ([Ev.errorEv "저장할 세그먼트가 없습니다."], Except.ok (-2))) ∧
    (∀ p, r.segments = [p] → env.moveOk = true →
      finalize_concat r env =
        ((if env.finalExists = true then [Ev.unlinkEv (final_filename o.output_dir ts)] else [])
          ++ [Ev.moveEv p (final_filename o.output_dir ts), Ev.rmdirEv segd,
              Ev.logEv ("[merge] single segment → " ++ baseName (final_filename o.output_dir ts))],
         Except.ok 0)) ∧
    (∀ p, r.segments = [p] → env.moveOk = false →
      finalize_concat r env =
        ((if env.finalExists = true then [Ev.unlinkEv (final_filename o.output_dir ts)] else [])
          ++ [Ev.errorEv "파일 이동 실패"],
         Except.ok (-3))) ∧
    (∀ p q rest, r.segments = p :: q :: rest →
      (env.writeOk = false →
        finalize_concat r env = ([Ev.errorEv "concat 리스트 작성 실패"], Except.ok (-4))) ∧
      (env.writeOk = true →
        (∀ stderrTxt, env.run = RunOutcome.completed 0 stderrTxt →
          finalize_concat r env =
            ([Ev.writeFileEv (segd ++ "/concat_list.txt")
                (String.join ((p :: q :: rest).map concatListLine)),
              Ev.logEv ("실행: " ++ String.intercalate " "
                [o.ffmpeg_path, "-hide_banner", "-y", "-f", "concat", "-safe", "0",
                 "-i", segd ++ "/concat_list.txt", "-c", "copy",
                 final_filename o.output_dir ts]),
              Ev.runProcEv [o.ffmpeg_path, "-hide_banner", "-y", "-f", "concat",
                 "-safe", "0", "-i", segd ++ "/concat_list.txt", "-c", "copy",
                 final_filename o.output_dir ts],
              Ev.logEv ("[merge] " ++ toString (p :: q :: rest).length
                ++ "개 세그먼트 병합 완료 → " ++ baseName (final_filename o.output_dir ts))]
             ++ (p :: q :: rest).map Ev.unlinkEv
             ++ [Ev.unlinkEv (segd ++ "/concat_list.txt"), Ev.rmdirEv segd],
             Except.ok 0)) ∧
        (∀ rc stderrTxt, env.run = RunOutcome.completed rc stderrTxt → rc ≠ 0 →
          finalize_concat r env =
            ([Ev.writeFileEv (segd ++ "/concat_list.txt")
                (String.join ((p :: q :: rest).map concatListLine)),
              Ev.logEv ("실행: " ++ String.intercalate " "
                [o.ffmpeg_path, "-hide_banner", "-y", "-f", "concat", "-safe", "0",
                 "-i", segd ++ "/concat_list.txt", "-c", "copy",
                 final_filename o.output_dir ts]),
              Ev.runProcEv [o.ffmpeg_path, "-hide_banner", "-y", "-f", "concat",
                 "-safe", "0", "-i", segd ++ "/concat_list.txt", "-c", "copy",
                 final_filename o.output_dir ts],
              Ev.errorEv ("concat 실패: " ++ pyStrip stderrTxt)],
             Except.ok rc)) ∧
        (env.run = RunOutcome.fileNotFound →
          ∀ e, e ∈ (finalize_concat r env).1 →
            (∀ pp, e ≠ Ev.unlinkEv pp) ∧ (∀ pp, e ≠ Ev.rmdirEv pp) ∧
            (∀ a b, e ≠ Ev.moveEv a b)) ∧
        (env.run = RunOutcome.fileNotFound → (finalize_concat r env).2 = Except.ok (-5)))) := by
  refine ⟨?_, ?_, ?_, ?_⟩
  · intro hseg
    simp [finalize_concat, ho, hts, hsd, hseg]
  · intro p hseg hmv
    simp [finalize_concat, ho, hts, hsd, hseg, hmv]
  · intro p hseg hmv
    simp [finalize_concat, ho, hts, hsd, hseg, hmv]
  · intro p q rest hseg
    refine ⟨?_, ?_⟩
    · intro hw
      simp [finalize_concat, ho, hts, hsd, hseg, hw]
    · intro hw
      refine ⟨?_, ?_, ?_, ?_⟩
      · intro stderrTxt hrun
        simp [finalize_concat, ho, hts, hsd, hseg, hw, hrun]
      · intro rc stderrTxt hrun hrc
        simp [finalize_concat, ho, hts, hsd, hseg, hw, hrun, hrc]
      · intro hrun e he
        simp [finalize_concat, ho, hts, hsd, hseg, hw, hrun] at he
        rcases he with h | h | h | h <;> subst h <;> exact ⟨fun pp => by simp, fun pp => by simp, fun a b => by simp⟩
      · intro hrun
        simp [finalize_concat, ho, hts, hsd, hseg, hw, hrun]

/-- Witness for `finalize_concat_semantics`: the single-segment session
`rec3` moves its file; the two-segment session `rec6` merges and then
deletes its intermediates. -/
theorem finalize_concat_semantics_witness :
    (finalize_concat rec3 ⟨false, true, true, RunOutcome.completed 0 ""⟩).2 = Except.ok 0 ∧
    Ev.moveEv seg01 "C:/rec/record_20250101_000000.mp4"
      ∈ (finalize_concat rec3 ⟨false, true, true, RunOutcome.completed 0 ""⟩).1 ∧
    (finalize_concat rec6 ⟨false, true, true, RunOutcome.completed 0 ""⟩).2 = Except.ok 0 ∧
    Ev.unlinkEv seg02
      ∈ (finalize_concat rec6 ⟨false, true, true, RunOutcome.completed 0 ""⟩).1 := by
  have h1 := (finalize_concat_semantics rec3 opt0 "20250101_000000"
    "C:/rec/.segments_20250101_000000" ⟨false, true, true, .completed 0 ""⟩
    (by decide) (by decide) (by decide)).2.1 seg01 (by decide) rfl
  have h2 := (((finalize_concat_semantics rec6 opt0 "20250101_000000"
    "C:/rec/.segments_20250101_000000" ⟨false, true, true, .completed 0 ""⟩
    (by decide) (by decide) (by decide)).2.2.2 seg01 seg02 [] (by decide)).2 rfl).1 "" rfl
  refine ⟨by rw [h1], by rw [h1]; decide, by rw [h2], by rw [h2]; decide⟩

/-- C9.  After every `stop` the state is IDLE, the process handle is
cleared and the LAST emitted event is `stopped` carrying the returned
code — for every starting state and environment, including the paths
where the process must be terminated or killed.  When finalization
raises (a non-FileNotFoundError escape of the concat run, the one spot
`_finalize_concat` does not catch) the exception is converted to an
error report with failure code -1 instead of propagating. -/
theorem stop_postcondition :
    (∀ (r : FFmpegRecorder) (env : StopEnv),
      (stop r env).1.rstate = RState.IDLE ∧
      (stop r env).1.proc = Option.none ∧
      (stop r env).2.1.getLast? = some (Ev.stoppedEv (stop r env).2.2)) ∧
    (∀ (r : FFmpegRecorder) (env : StopEnv) (o : FFmpegOptions) (ts segd : String)
        (p q : String) (rest : List String),
      r.proc = Option.none → r.opt = some o → r.base_ts = some ts →
      r.seg_dir = some segd → r.segments = p :: q :: rest →
      env.fin.writeOk = true → env.fin.run = RunOutcome.raisedOther →
      (stop r env).2.2 = -1 ∧
      Ev.errorEv "정지 처리 중 오류" ∈ (stop r env).2.1) := by
  constructor
  · intro r env
    refine ⟨?_, ?_, ?_⟩
    · simp only [stop]
      rw [setStateF_fst_rstate]
    · simp only [stop]
      rw [setStateF_fst_proc]
    · simp only [stop]
      simp [List.getLast?_append, setStateF_snd]
  · intro r env o ts segd p q rest hp ho hts hsd hseg hw hrun
    constructor
    · simp [stop, hp, finalize_concat, ho, hts, hsd, hseg, hw, hrun]
    · simp [stop, hp, finalize_concat, ho, hts, hsd, hseg, hw, hrun]

/-- Witness for `stop_postcondition`: a clean stop of the one-segment
session, and a finalization-exception stop of the two-segment session
yielding -1 with the error reported. -/
theorem stop_postcondition_witness :
    (stop rec3 ⟨0, true, 100, true, true,
        ⟨false, true, true, RunOutcome.completed 0 ""⟩⟩).1.rstate = RState.IDLE ∧
    (stop rec6 ⟨0, true, 100, true, true,
        ⟨false, true, true, RunOutcome.raisedOther⟩⟩).2.2 = -1 ∧
    Ev.errorEv "정지 처리 중 오류" ∈ (stop rec6 ⟨0, true, 100, true, true,
        ⟨false, true, true, RunOutcome.raisedOther⟩⟩).2.1 := by
  refine ⟨(stop_postcondition.1 rec3 _).1, ?_, ?_⟩
  · exact (stop_postcondition.2 rec6 _ opt0 "20250101_000000"
      "C:/rec/.segments_20250101_000000" seg01 seg02 []
      (by decide) (by decide) (by decide) (by decide) (by decide) rfl rfl).1
  · exact (stop_postcondition.2 rec6 _ opt0 "20250101_000000"
      "C:/rec/.segments_20250101_000000" seg01 seg02 []
      (by decide) (by decide) (by decide) (by decide) (by decide) rfl rfl).2

/-- C3 (amended).  `FFmpegOptions` carries a single input delay — the
audio delay; there is no video input delay field.  The command always
opens with the fixed global flags and video-capture block, which never
contains a time-offset argument, so no time-offset ever precedes the
video source argument; a zero audio delay never produces a time-offset
argument anywhere; a nonzero audio delay (with dshow audio and a
nonempty device) produces the time-offset pair placed immediately before
the audio input-argument block. -/
theorem itsoffset_placement (opt : FFmpegOptions) (out_file : String)
    (hyg : NoItsoffsetCollision opt out_file) :
    (∃ rest, build_command opt out_file =
        [opt.ffmpeg_path, "-y", "-hide_banner", "-v", "warning",
         "-f", "gdigrab", "-framerate", toString opt.fps,
         "-offset_x", toString opt.monitor.x, "-offset_y", toString opt.monitor.y,
         "-video_size", toString opt.monitor.width ++ "x" ++ toString opt.monitor.height,
         "-i", "desktop"] ++ rest ∧
      "-itsoffset" ∉ [opt.ffmpeg_path, "-y", "-hide_banner", "-v", "warning",
         "-f", "gdigrab", "-framerate", toString opt.fps,
         "-offset_x", toString opt.monitor.x, "-offset_y", toString opt.monitor.y,
         "-video_size", toString opt.monitor.width ++ "x" ++ toString opt.monitor.height,
         "-i", "desktop"]) ∧
    (opt.audio_delay_ms = 0 → "-itsoffset" ∉ build_command opt out_file) ∧
    (∀ dev, opt.audio_mode = AudioMode.dshow → opt.audio_device = some dev → dev ≠ "" →
      opt.audio_delay_ms ≠ 0 →
      build_command opt out_file =
        [opt.ffmpeg_path, "-y", "-hide_banner", "-v", "warning",
         "-f", "gdigrab", "-framerate", toString opt.fps,
         "-offset_x", toString opt.monitor.x, "-offset_y", toString opt.monitor.y,
         "-video_size", toString opt.monitor.width ++ "x" ++ toString opt.monitor.height,
         "-i", "desktop"]
        ++ ["-itsoffset", fmtItsoffset opt.audio_delay_ms,
            "-thread_queue_size", "512", "-f", "dshow", "-i", "audio=" ++ dev]
        ++ video_encode_args opt
        ++ ["-c:a", "aac", "-b:a", "192k", "-ar", "48000", "-ac", "2"]
        ++ ["-movflags", "+faststart"] ++ [out_file]) := by
  obtain ⟨h1, h2⟩ := hyg
  simp only [List.mem_cons, List.not_mem_nil, or_false, not_or] at h1
  obtain ⟨hfp, hfps, hmx, hmy, hsz, hpre, hout⟩ := h1
  refine ⟨?_, ?_, ?_⟩
  · refine ⟨_, rfl, ?_⟩
    simp [hfp, hfps, hmx, hmy, hsz]
  · intro h0
    have h2x : ∀ dev, opt.audio_device = some dev → ¬("-itsoffset" = "audio=" ++ dev) :=
      fun dev h e => h2 dev h e.symm
    rcases ham : opt.audio_mode <;>
      [skip; rcases had : opt.audio_device with _ | dev] <;>
        rcases henc : opt.encoder <;>
          simp_all [build_command, video_encode_args, h0]
  · intro dev ham had hne h0
    simp [build_command, video_encode_args, ham, had, hne, h0]

/-- Counterexample to C3 as stated: the claim asserts that a nonzero
video input delay inserts a time-offset argument immediately before the
video source argument, but the options of the source have no video
input delay at all — take the hypothetical video delay 1 ≠ 0: the full
command (shown explicitly for concrete options) carries its only
`-itsoffset` inside the audio input block, and no time-offset occurs at
or before the video source argument `-i desktop` (the first 16
entries). -/
theorem no_video_delay_offset_cex :
    (1 : Int) ≠ 0 ∧
    build_command opt0 "C:/rec/out.mp4" =
      ["C:/ffmpeg/bin/ffmpeg.exe", "-y", "-hide_banner", "-v", "warning",
       "-f", "gdigrab", "-framerate", "30", "-offset_x", "0", "-offset_y", "0",
       "-video_size", "1920x1080", "-i", "desktop",
       "-itsoffset", "0.500", "-thread_queue_size", "512", "-f", "dshow", "-i",
       "audio=@device_cm_guid",
       "-c:v", "libx264", "-preset", "veryfast", "-pix_fmt", "yuv420p",
       "-c:a", "aac", "-b:a", "192k", "-ar", "48000", "-ac", "2",
       "-movflags", "+faststart", "C:/rec/out.mp4"] ∧
    "-itsoffset" ∉ (build_command opt0 "C:/rec/out.mp4").take 16 := by decide

/-- Witness for `itsoffset_placement`: zero delay yields no time-offset
argument; the 500 ms delay of `opt0` yields one immediately before the
audio input block. -/
theorem itsoffset_placement_witness :
    "-itsoffset" ∉ build_command { opt0 with audio_delay_ms := 0 } "C:/rec/out.mp4" ∧
    build_command opt0 "C:/rec/out.mp4" =
      ["C:/ffmpeg/bin/ffmpeg.exe", "-y", "-hide_banner", "-v", "warning",
       "-f", "gdigrab", "-framerate", "30", "-offset_x", "0", "-offset_y", "0",
       "-video_size", "1920x1080", "-i", "desktop"]
      ++ ["-itsoffset", fmtItsoffset 500,
          "-thread_queue_size", "512", "-f", "dshow", "-i", "audio=@device_cm_guid"]
      ++ video_encode_args opt0
      ++ ["-c:a", "aac", "-b:a", "192k", "-ar", "48000", "-ac", "2"]
      ++ ["-movflags", "+faststart"] ++ ["C:/rec/out.mp4"] := by
  constructor
  · exact (itsoffset_placement { opt0 with audio_delay_ms := 0 } "C:/rec/out.mp4"
      ⟨by decide, fun dev h => by injection h with h2; subst h2; decide⟩).2.1 rfl
  · have h := (itsoffset_placement opt0 "C:/rec/out.mp4"
      ⟨by decide, fun dev h => by injection h with h2; subst h2; decide⟩).2.2
      "@device_cm_guid" rfl rfl (by decide) (by decide)
    simpa using h
